import Mathlib

/-!
Verification of the SheetDAO class (Google Apps Script, file src/unnamed/part_000).

The class wraps one spreadsheet table: row 1 is the header (cached at
construction as `this.headers`, width `this.lastCol`), rows 2.. are data rows.
We embed the table as a `Sheet` (cached header plus the list of data rows) and
each method as a pure function on it.  Cell values are the scalar values the
claims exercise: strings, integers and booleans; an empty cell reads back as
the empty string, which is how the platform API reports it.  JS objects are
embedded as association lists in insertion order, with JS property-assignment
semantics (`Record.set`), so that spread merges such as
`\x7b [idKey]: newId, ...data \x7d` keep their exact JS meaning, including which
side wins on a duplicate key.
-/

/-- A scalar cell / field value.  `num` carries an integer: the integers are
the numeric fragment the DAO itself produces (auto-assigned ids) and the one
the claims quantify over. -/
inductive Value where
  | str (s : String)
  | num (n : Int)
  | boolean (b : Bool)
deriving DecidableEq, Repr

/-- JS `String(v)` on our value fragment: integers print in decimal,
booleans as `true` / `false`. -/
def Value.toStr : Value → String
  | .str s => s
  | .num n => toString n
  | .boolean b => if b then "true" else "false"

/-- Digits-only string to a natural number; `none` when empty or any
character is not a decimal digit. -/
def decDigits? (cs : List Char) : Option Nat :=
  if cs ≠ [] ∧ cs.all Char.isDigit then
    some (cs.foldl (fun n c => n * 10 + (c.toNat - 48)) 0)
  else none

/-- JS `Number(s)` on the integer fragment of string literals: leading and
trailing whitespace is trimmed, the empty string is 0, an optional sign
followed by decimal digits is the signed value; anything else is NaN,
returned here as `none`. -/
def jsStringToNumber? (s : String) : Option Int :=
  let t := s.trim
  if t = "" then some 0
  else
    match t.data with
    | '-' :: cs => (decDigits? cs).map (fun n => -(n : Int))
    | '+' :: cs => (decDigits? cs).map (fun n => (n : Int))
    | cs => (decDigits? cs).map (fun n => (n : Int))

/-- JS `Number(v) || 0` as used in `add` for the last id cell: numbers pass
through (`0 || 0` is 0), booleans convert to 1 / 0, strings parse as above
with NaN collapsing to 0. -/
def jsNumberOr0 : Value → Int
  | .num n => n
  | .boolean b => if b then 1 else 0
  | .str s => (jsStringToNumber? s).getD 0

/-- A JS object: an association list of properties in insertion order.  A JS
object never holds the same key twice; `Record.set` maintains that. -/
abbrev Record := List (String × Value)

/-- JS property read `obj[k]`: the value at key `k`, `none` for `undefined`. -/
def Record.get? (r : Record) (k : String) : Option Value :=
  (List.find? (fun p => p.1 = k) r).map (fun p => p.2)

/-- The keys of a JS object, in insertion order. -/
def Record.keys (r : Record) : List String :=
  r.map Prod.fst

/-- JS property assignment `obj[k] = v`: overwrite in place when the key is
present, append otherwise. -/
def Record.set (r : Record) (k : String) (v : Value) : Record :=
  if (Record.get? r k).isSome then
    r.map (fun p => if p.1 = k then (k, v) else p)
  else r ++ [(k, v)]

/-- Assign a list of properties left to right onto `r` (the elaboration of a
JS object literal). -/
def Record.setAll (r : Record) (kvs : List (String × Value)) : Record :=
  kvs.foldl (fun a kv => Record.set a kv.1 kv.2) r

/-- JS spread merge `\x7b ...a, ...b \x7d`: assign the properties of `a` then
those of `b` onto a fresh object, so `b` wins on shared keys. -/
def jsSpread2 (a b : Record) : Record :=
  Record.setAll [] (a ++ b)

/-- The table a SheetDAO instance is bound to: the header row cached by the
constructor (`this.headers`, nonempty since the constructor throws when
`lastCol` is 0) and the data rows below it.  `this.lastCol` is
`headers.length` and the sheet `getLastRow()` is `rows.length + 1`. -/
structure Sheet where
  headers : List String
  rows : List (List Value)
deriving DecidableEq, Repr

/-- `_toObject(rowArray)`: `headers.reduce` assigning `obj[key] = rowArray[index]`
for each header key with its index; a cell beyond the stored row reads as the
empty string (the platform pads `getValues` to the requested width). -/
def toObjectAux (hs : List String) (row : List Value) (i : Nat) (acc : Record) : Record :=
  match hs with
  | [] => acc
  | k :: t => toObjectAux t row (i + 1) (Record.set acc k (row.getD i (Value.str "")))

/-- `_toObject` on a sheet: fold the cached header over the row. -/
def Sheet.toObject (sh : Sheet) (row : List Value) : Record :=
  toObjectAux sh.headers row 0 []

/-- `_toRowArray(obj)`: `headers.map((key) => obj[key] ?? "")` — one cell per
header column, the empty string when the object lacks the key. -/
def Sheet.toRowArray (sh : Sheet) (obj : Record) : List Value :=
  sh.headers.map (fun k => (Record.get? obj k).getD (Value.str ""))

/-- The loop test of `_getRowIndexById`: the first cell of the row,
converted with `String(...)`, equals `String(id)` (strict string equality
`===` on the two converted values). -/
def rowMatchesId (id : Value) (row : List Value) : Bool :=
  (row.headD (Value.str "")).toStr = id.toStr

/-- `_getRowIndexById(id)`: `null` when the table has no data rows, else scan
the id column top to bottom (the loop starts at index 1, skipping the header
cell) for the first row whose first cell stringifies equal to `String(id)`,
returning its 1-based sheet row index (data row `j` lives at sheet row
`j + 2`). -/
def Sheet.getRowIndexById (sh : Sheet) (id : Value) : Option Nat :=
  if sh.rows.length + 1 ≤ 1 then none
  else
    match sh.rows.findIdx? (rowMatchesId id) with
    | some j => some (j + 2)
    | none => none

/-- `_getObjectByRowIndex(rowIndex)`: read the full row at that sheet row and
convert it to an object. -/
def Sheet.getObjectByRowIndex (sh : Sheet) (rowIndex : Nat) : Record :=
  sh.toObject (sh.rows.getD (rowIndex - 2) [])

/-- `find(id)`: the object at the located row, `null` when the scan fails
(the row index returned by the scan is at least 2, hence always truthy). -/
def Sheet.find (sh : Sheet) (id : Value) : Option Record :=
  (sh.getRowIndexById id).map (fun rowIndex => sh.getObjectByRowIndex rowIndex)

/-- `listAll()`: empty when there are no data rows, else every data row
converted to an object, in row order. -/
def Sheet.listAll (sh : Sheet) : List Record :=
  if sh.rows.length + 1 ≤ 1 then []
  else sh.rows.map (fun row => sh.toObject row)

/-- The id cell `add` reads: the JS number 0 when the table has no data rows
(`lastRow <= 1`), else `getRange(lastRow, 1).getValue()`, the first cell of
the last data row. -/
def Sheet.lastIdValue (sh : Sheet) : Value :=
  if sh.rows.length + 1 ≤ 1 then Value.num 0
  else ((sh.rows.getLast?).getD []).headD (Value.str "")

/-- The id `add` assigns: `(Number(lastId) || 0) + 1`. -/
def Sheet.nextId (sh : Sheet) : Int :=
  jsNumberOr0 sh.lastIdValue + 1

/-- `add(data)` without the lock ceremony (see `addLocked`): compute the new
id, build `newRecord = \x7b [idKey]: newId, ...data \x7d` where `idKey` is
`headers[0]`, convert it to a row and append that row; return the built
record together with the new table state. -/
def Sheet.add (sh : Sheet) (data : Record) : Record × Sheet :=
  let idKey := sh.headers.headD ""
  let newId := sh.nextId
  let newRecord := jsSpread2 [(idKey, Value.num newId)] data
  let rowValue := sh.toRowArray newRecord
  (newRecord, { sh with rows := sh.rows ++ [rowValue] })

/-- `update(id, data)` without the lock ceremony (see `updateLocked`): locate
the row; on a miss return `false` with the table untouched; on a hit merge
`\x7b ...currentRecord, ...data \x7d`, convert to a row and write it back over
the same sheet row. -/
def Sheet.update (sh : Sheet) (id : Value) (data : Record) : Bool × Sheet :=
  match sh.getRowIndexById id with
  | none => (false, sh)
  | some rowIndex =>
    let currentRecord := sh.getObjectByRowIndex rowIndex
    let updatedRecord := jsSpread2 currentRecord data
    let rowValue := sh.toRowArray updatedRecord
    (true, { sh with rows := sh.rows.set (rowIndex - 2) rowValue })

/-- `remove(id)`: locate the row; on a miss return `false` with the table
untouched; on a hit delete that whole row, the rows below shifting up by
one.  No lock is taken. -/
def Sheet.remove (sh : Sheet) (id : Value) : Bool × Sheet :=
  match sh.getRowIndexById id with
  | none => (false, sh)
  | some rowIndex => (true, { sh with rows := sh.rows.eraseIdx (rowIndex - 2) })

/-- Outcome of `lock.waitLock(30000)`: the script lock was acquired within
the bound, or the 30 second wait elapsed and the call threw. -/
inductive LockOutcome where
  | acquired
  | timeout
deriving DecidableEq, Repr

/-- `add` with the `LockService` interaction explicit.  `waitLock` runs
before any read or write of the sheet; when it times out the thrown error
propagates out of the `try` and the `finally` still runs `releaseLock`, so
the sheet is untouched and the lock is not held on exit.  The returned
triple is (thrown error or returned record, table state after the call,
whether the lock is still held on exit). -/
def Sheet.addLocked (lock : LockOutcome) (sh : Sheet) (data : Record) :
    Except String Record × Sheet × Bool :=
  match lock with
  | .timeout => (Except.error "Lock timeout: could not obtain lock after 30000ms", sh, false)
  | .acquired =>
    let res := sh.add data
    (Except.ok res.1, res.2, false)

/-- `update` with the `LockService` interaction explicit, as in `addLocked`;
the not-found path also releases the lock in the `finally`. -/
def Sheet.updateLocked (lock : LockOutcome) (sh : Sheet) (id : Value) (data : Record) :
    Except String Bool × Sheet × Bool :=
  match lock with
  | .timeout => (Except.error "Lock timeout: could not obtain lock after 30000ms", sh, false)
  | .acquired =>
    let res := sh.update id data
    (Except.ok res.1, res.2, false)

/-- Run a list of `add` calls in order, collecting the returned records. -/
def Sheet.addSeq (sh : Sheet) (ds : List Record) : List Record × Sheet :=
  match ds with
  | [] => ([], sh)
  | d :: t =>
    let r := sh.add d
    let rest := r.2.addSeq t
    (r.1 :: rest.1, rest.2)

/-- The concrete scenario table of the spec: header [id, name, age] with the
single record Ann. -/
def sheetAnn : Sheet :=
  { headers := ["id", "name", "age"], rows := [[Value.num 1, Value.str "Ann", Value.num 30]] }

/-- A two-column table with a header row and no data rows. -/
def sheetEmpty2 : Sheet :=
  { headers := ["id", "name"], rows := [] }

/-- A two-column table with one record. -/
def sheetOne2 : Sheet :=
  { headers := ["id", "name"], rows := [[Value.num 1, Value.str "Ann"]] }

/-- A two-column table with two records. -/
def sheetTwo2 : Sheet :=
  { headers := ["id", "name"], rows := [[Value.num 1, Value.str "Ann"], [Value.num 2, Value.str "Bo"]] }

/-! ### Properties of the JS object embedding -/

theorem Record.get?_nil (k : String) : Record.get? [] k = none := rfl

theorem Record.get?_cons (a : String × Value) (t : Record) (k : String) :
    Record.get? (a :: t) k = if a.1 = k then some a.2 else Record.get? t k := by
  by_cases h : a.1 = k <;> simp [Record.get?, List.find?_cons, h]

/-- Overwriting pass of `Record.set` when the key is already present: the key
keeps its position, its value becomes `v`, every other key is untouched. -/
theorem Record.get?_overwrite (r : Record) (k : String) (v : Value) (q : String) :
    Record.get? (r.map (fun p => if p.1 = k then (k, v) else p)) q =
      if q = k then (Record.get? r k).map (fun _ => v) else Record.get? r q := by
  induction r with
  | nil => by_cases h : q = k <;> simp [Record.get?]
  | cons a t ih =>
    by_cases ha : a.1 = k
    · simp only [List.map_cons]
      rw [if_pos ha, Record.get?_cons, Record.get?_cons, Record.get?_cons, ih]
      by_cases hq : q = k
      · simp_all
      · have hkq : ¬ k = q := fun h => hq h.symm
        simp_all
    · simp only [List.map_cons]
      rw [if_neg ha, Record.get?_cons, Record.get?_cons, Record.get?_cons, ih]
      by_cases hq : q = k <;> by_cases haq : a.1 = q <;> simp_all

/-- Appending pass of `Record.set` when the key is absent. -/
theorem Record.get?_append_single (r : Record) (k : String) (v : Value) (q : String)
    (h : Record.get? r k = none) :
    Record.get? (r ++ [(k, v)]) q = if q = k then some v else Record.get? r q := by
  unfold Record.get? at h ⊢
  rw [List.find?_append]
  by_cases hq : q = k
  · subst hq
    have hf : List.find? (fun p : String × Value => p.1 = q) r = none := by
      cases hf : List.find? (fun p : String × Value => p.1 = q) r with
      | none => rfl
      | some p => rw [hf] at h; simp at h
    rw [hf]
    simp [List.find?_cons]
  · have hkq : (decide (k = q)) = false := decide_eq_false (fun h => hq h.symm)
    have hone : List.find? (fun p : String × Value => p.1 = q) [(k, v)] = none := by
      rw [List.find?_cons, hkq]
      exact rfl
    rw [hone, if_neg hq, Option.or_none]

/-- JS property assignment, observed through property reads. -/
theorem Record.get?_set (r : Record) (k : String) (v : Value) (q : String) :
    Record.get? (Record.set r k v) q = if q = k then some v else Record.get? r q := by
  unfold Record.set
  by_cases h : (Record.get? r k).isSome
  · rw [if_pos h, Record.get?_overwrite]
    by_cases hq : q = k
    · rw [if_pos hq, if_pos hq]
      cases ho : Record.get? r k with
      | none => rw [ho] at h; simp at h
      | some w => simp
    · rw [if_neg hq, if_neg hq]
  · have hnone : Record.get? r k = none := by
      cases ho : Record.get? r k with
      | none => rfl
      | some w => rw [ho] at h; simp at h
    rw [if_neg h, Record.get?_append_single r k v q hnone]

/-- A sequence of assignments, observed through property reads: the last
assignment of the key wins, an unassigned key reads from the base object. -/
theorem Record.get?_setAll (kvs : List (String × Value)) (r : Record) (q : String) :
    Record.get? (Record.setAll r kvs) q =
      ((kvs.reverse.find? (fun p => p.1 = q)).map (fun p => p.2)).or (Record.get? r q) := by
  induction kvs generalizing r with
  | nil => simp [Record.setAll]
  | cons a t ih =>
    have hstep : Record.setAll r (a :: t) = Record.setAll (Record.set r a.1 a.2) t := rfl
    rw [hstep, ih, List.reverse_cons, List.find?_append, Record.get?_set]
    cases hf : List.find? (fun p : String × Value => p.1 = q) t.reverse with
    | some u => simp
    | none =>
      by_cases hq : q = a.1
      · have haq : (decide (a.1 = q)) = true := decide_eq_true hq.symm
        rw [List.find?_cons, haq, if_pos hq]
        simp
      · have haq : (decide (a.1 = q)) = false := decide_eq_false (fun h => hq h.symm)
        rw [List.find?_cons, haq, if_neg hq]
        simp

/-- A key reads as `undefined` exactly when it is not among the keys. -/
theorem Record.get?_eq_none_iff (r : Record) (k : String) :
    Record.get? r k = none ↔ k ∉ Record.keys r := by
  unfold Record.get? Record.keys
  cases hf : List.find? (fun p : String × Value => p.1 = k) r with
  | some p =>
    constructor
    · intro h; simp at h
    · intro h
      exfalso
      have hp := List.find?_some hf
      have hmem := List.mem_of_find?_eq_some hf
      exact h (List.mem_map.mpr ⟨p, hmem, by simpa using hp⟩)
  | none =>
    constructor
    · intro _ hmem
      obtain ⟨p, hpmem, hpk⟩ := List.mem_map.mp hmem
      have hfalse := List.find?_eq_none.mp hf p hpmem
      simp [hpk] at hfalse
    · intro _; rfl

/-- In an object with pairwise distinct keys the scan from the back agrees
with the scan from the front. -/
theorem find?_reverse_of_nodup_keys (r : Record) (q : String)
    (h : (Record.keys r).Nodup) :
    r.reverse.find? (fun p => p.1 = q) = r.find? (fun p => p.1 = q) := by
  induction r with
  | nil => rfl
  | cons a t ih =>
    unfold Record.keys at h
    rw [List.map_cons, List.nodup_cons] at h
    obtain ⟨hna, hnd⟩ := h
    rw [List.reverse_cons, List.find?_append, ih hnd]
    by_cases hq : a.1 = q
    · have ht : List.find? (fun p : String × Value => p.1 = q) t = none := by
        rw [List.find?_eq_none]
        intro p hp hcontra
        have hpq : p.1 = q := by simpa using hcontra
        exact hna (List.mem_map.mpr ⟨p, hp, hpq.trans hq.symm⟩)
      rw [ht]
      simp [List.find?_cons, decide_eq_true hq]
    · have hd : (decide (a.1 = q)) = false := decide_eq_false hq
      simp [List.find?_cons, hd]

/-- Spread of two objects with pairwise distinct keys, observed through
property reads: the right object wins. -/
theorem Record.get?_jsSpread2 (a b : Record) (q : String)
    (ha : (Record.keys a).Nodup) (hb : (Record.keys b).Nodup) :
    Record.get? (jsSpread2 a b) q = (Record.get? b q).or (Record.get? a q) := by
  unfold jsSpread2
  rw [Record.get?_setAll, List.reverse_append, List.find?_append,
    find?_reverse_of_nodup_keys a q ha, find?_reverse_of_nodup_keys b q hb]
  unfold Record.get?
  cases List.find? (fun p : String × Value => p.1 = q) b <;>
    cases List.find? (fun p : String × Value => p.1 = q) a <;> simp

/-- The keys after an assignment: unchanged on overwrite, the new key
appended otherwise. -/
theorem Record.keys_set (r : Record) (k : String) (v : Value) :
    Record.keys (Record.set r k v) =
      if (Record.get? r k).isSome then Record.keys r else Record.keys r ++ [k] := by
  unfold Record.set Record.keys
  by_cases h : (Record.get? r k).isSome
  · rw [if_pos h, if_pos h, List.map_map]
    congr 1
    funext p
    by_cases hp : p.1 = k <;> simp [hp]
  · rw [if_neg h, if_neg h, List.map_append]
    rfl

theorem Record.nodup_keys_set (r : Record) (k : String) (v : Value)
    (h : (Record.keys r).Nodup) : (Record.keys (Record.set r k v)).Nodup := by
  rw [Record.keys_set]
  by_cases hs : (Record.get? r k).isSome
  · rw [if_pos hs]; exact h
  · rw [if_neg hs]
    have hk : k ∉ Record.keys r := by
      rw [← Record.get?_eq_none_iff]
      cases ho : Record.get? r k with
      | none => rfl
      | some w => rw [ho] at hs; simp at hs
    rw [List.nodup_append]
    exact ⟨h, List.nodup_singleton k, by
      intro x hx hx1
      rw [List.mem_singleton] at hx1
      exact hk (hx1 ▸ hx)⟩

theorem Record.nodup_keys_setAll (kvs : List (String × Value)) (r : Record)
    (h : (Record.keys r).Nodup) : (Record.keys (Record.setAll r kvs)).Nodup := by
  induction kvs generalizing r with
  | nil => exact h
  | cons a t ih => exact ih _ (Record.nodup_keys_set r a.1 a.2 h)

theorem nodup_keys_toObjectAux (hs : List String) (row : List Value) (i : Nat) (acc : Record)
    (h : (Record.keys acc).Nodup) : (Record.keys (toObjectAux hs row i acc)).Nodup := by
  induction hs generalizing i acc with
  | nil => exact h
  | cons k t ih => exact ih _ _ (Record.nodup_keys_set _ _ _ h)

/-- `_toObject` always produces an object with pairwise distinct keys. -/
theorem nodup_keys_toObject (sh : Sheet) (row : List Value) :
    (Record.keys (sh.toObject row)).Nodup :=
  nodup_keys_toObjectAux _ _ _ _ (by simp [Record.keys])

/-- A spread always produces an object with pairwise distinct keys. -/
theorem nodup_keys_jsSpread2 (a b : Record) : (Record.keys (jsSpread2 a b)).Nodup :=
  Record.nodup_keys_setAll _ _ (by simp [Record.keys])

/-- Reading a key out of the object built by the `_toObject` fold: with
pairwise distinct header names the key at header position `j` holds the cell
at row position `i + j`, and a key that is not a header reads from the
accumulator. -/
theorem get?_toObjectAux (hs : List String) (row : List Value) (i : Nat) (acc : Record)
    (q : String) (hnd : hs.Nodup) :
    Record.get? (toObjectAux hs row i acc) q =
      match hs.findIdx? (fun x => x = q) with
      | some j => some (row.getD (i + j) (Value.str ""))
      | none => Record.get? acc q := by
  induction hs generalizing i acc with
  | nil => rfl
  | cons k t ih =>
    rw [List.nodup_cons] at hnd
    obtain ⟨hk, hnd⟩ := hnd
    have hstep : toObjectAux (k :: t) row i acc =
        toObjectAux t row (i + 1) (Record.set acc k (row.getD i (Value.str ""))) := rfl
    rw [hstep, ih _ _ hnd, List.findIdx?_cons]
    by_cases hq : k = q
    · have ht : t.findIdx? (fun x => x = q) = none := by
        rw [List.findIdx?_eq_none_iff]
        intro x hx
        exact decide_eq_false (fun hxq => hk ((hxq.trans hq.symm) ▸ hx))
      rw [ht, decide_eq_true hq]
      simp [Record.get?_set, hq.symm]
    · have hd : (decide (k = q)) = false := decide_eq_false hq
      rw [hd, List.findIdx?_succ]
      cases hf : t.findIdx? (fun x => x = q) with
      | some j =>
        have harith : i + 1 + j = i + (j + 1) := by omega
        simp [harith]
      | none =>
        show Record.get? (Record.set acc k (row.getD i (Value.str ""))) q = Record.get? acc q
        rw [Record.get?_set, if_neg (fun h : q = k => hq h.symm)]

/-- `_toObject` observed through property reads, for pairwise distinct
headers: header at position `j` maps to cell `j` (the empty string past the
end of the row), anything else is `undefined`.  Extra cells beyond the header
length are ignored. -/
theorem get?_toObject (sh : Sheet) (row : List Value) (q : String) (hnd : sh.headers.Nodup) :
    Record.get? (sh.toObject row) q =
      match sh.headers.findIdx? (fun x => x = q) with
      | some j => some (row.getD j (Value.str ""))
      | none => none := by
  unfold Sheet.toObject
  rw [get?_toObjectAux _ _ _ _ _ hnd]
  cases sh.headers.findIdx? (fun x => x = q) with
  | some j => simp
  | none => rfl

/-- `List.findIdx?` returns the index of the first hit. -/
theorem findIdx?_first {α : Type} (p : α → Bool) (l : List α) (j : Nat) (d : α)
    (hj : j < l.length) (hp : p (l.getD j d) = true)
    (hfirst : ∀ i, i < j → p (l.getD i d) = false) :
    l.findIdx? p = some j := by
  induction l generalizing j with
  | nil => simp at hj
  | cons a t ih =>
    rw [List.findIdx?_cons]
    cases j with
    | zero =>
      rw [List.getD_cons_zero] at hp
      rw [hp]
      exact rfl
    | succ j =>
      have h0 : p a = false := by
        have h00 := hfirst 0 (Nat.succ_pos j)
        rwa [List.getD_cons_zero] at h00
      rw [h0, List.findIdx?_succ]
      have hrec := ih j (by simpa using hj) (by rwa [List.getD_cons_succ] at hp)
        (fun i hi => by
          have hgi := hfirst (i + 1) (Nat.succ_lt_succ hi)
          rwa [List.getD_cons_succ] at hgi)
      rw [hrec]
      exact rfl

/-- What a successful `List.findIdx?` guarantees: the index is in range, the
element there satisfies the test, and nothing before it does. -/
theorem findIdx?_some_spec {α : Type} (p : α → Bool) (l : List α) (j : Nat) (d : α)
    (h : l.findIdx? p = some j) :
    j < l.length ∧ p (l.getD j d) = true ∧ ∀ i, i < j → p (l.getD i d) = false := by
  induction l generalizing j with
  | nil => simp [List.findIdx?] at h
  | cons a t ih =>
    rw [List.findIdx?_cons] at h
    cases hpa : p a with
    | true =>
      rw [hpa] at h
      simp at h
      subst h
      exact ⟨Nat.succ_pos _, by rwa [List.getD_cons_zero],
        fun i hi => absurd hi (Nat.not_lt_zero i)⟩
    | false =>
      rw [hpa, List.findIdx?_succ] at h
      simp at h
      cases hf : t.findIdx? p with
      | none => rw [hf] at h; simp at h
      | some u =>
        rw [hf] at h
        simp at h
        obtain ⟨h1, h2, h3⟩ := ih u hf
        subst h
        refine ⟨Nat.succ_lt_succ h1, by rwa [List.getD_cons_succ], ?_⟩
        intro i hi
        cases i with
        | zero => rwa [List.getD_cons_zero]
        | succ i =>
          rw [List.getD_cons_succ]
          exact h3 i (Nat.lt_of_succ_lt_succ hi)

/-- The guard and the match in `_getRowIndexById` collapse to mapping the
scan result to its sheet row index. -/
theorem getRowIndexById_eq (sh : Sheet) (id : Value) :
    sh.getRowIndexById id = (sh.rows.findIdx? (rowMatchesId id)).map (fun j => j + 2) := by
  unfold Sheet.getRowIndexById
  cases hr : sh.rows with
  | nil => rfl
  | cons a t =>
    have hg : ¬ ((a :: t).length + 1 ≤ 1) := by simp
    rw [if_neg hg]
    cases (a :: t).findIdx? (rowMatchesId id) <;> rfl

/-- A located row index is a real data row: it is at least 2, in range, its
row matches the id, and no earlier data row does. -/
theorem getRowIndexById_some (sh : Sheet) (id : Value) (ri : Nat)
    (h : sh.getRowIndexById id = some ri) :
    2 ≤ ri ∧ ri - 2 < sh.rows.length ∧
      rowMatchesId id (sh.rows.getD (ri - 2) []) = true ∧
      ∀ i, i < ri - 2 → rowMatchesId id (sh.rows.getD i []) = false := by
  rw [getRowIndexById_eq] at h
  cases hf : sh.rows.findIdx? (rowMatchesId id) with
  | none => rw [hf] at h; simp at h
  | some j =>
    rw [hf] at h
    simp at h
    obtain ⟨h1, h2, h3⟩ := findIdx?_some_spec (rowMatchesId id) sh.rows j [] hf
    subst h
    have hj : j + 2 - 2 = j := by omega
    rw [hj]
    exact ⟨by omega, h1, h2, h3⟩

/-- The scan misses exactly when no data row matches the id. -/
theorem getRowIndexById_none_iff (sh : Sheet) (id : Value) :
    sh.getRowIndexById id = none ↔ ∀ row ∈ sh.rows, rowMatchesId id row = false := by
  rw [getRowIndexById_eq, Option.map_eq_none', List.findIdx?_eq_none_iff]

theorem toRowArray_length (sh : Sheet) (r : Record) :
    (sh.toRowArray r).length = sh.headers.length :=
  List.length_map sh.headers _

/-- A cell of `_toRowArray`, by position. -/
theorem toRowArray_getD (sh : Sheet) (r : Record) (i : Nat) (hi : i < sh.headers.length) :
    (sh.toRowArray r).getD i (Value.str "") =
      (Record.get? r (sh.headers.getD i "")).getD (Value.str "") := by
  unfold Sheet.toRowArray
  rw [List.getD_eq_getElem?_getD, List.getElem?_map, List.getElem?_eq_getElem hi]
  rw [List.getD_eq_getElem?_getD, List.getElem?_eq_getElem hi]
  rfl

/-- The first cell of `_toRowArray` is the value at the identifier key. -/
theorem toRowArray_headD (sh : Sheet) (r : Record) (hh : sh.headers ≠ []) :
    (sh.toRowArray r).headD (Value.str "") =
      (Record.get? r (sh.headers.headD "")).getD (Value.str "") := by
  cases hs : sh.headers with
  | nil => exact absurd hs hh
  | cons k t =>
    unfold Sheet.toRowArray
    rw [hs]
    rfl

/-- `add` reads back the assigned id under the identifier key whenever the
input leaves that key alone. -/
theorem get?_add_idKey (sh : Sheet) (data : Record)
    (hnd : (Record.keys data).Nodup)
    (hid : Record.get? data (sh.headers.headD "") = none) :
    Record.get? (sh.add data).1 (sh.headers.headD "") = some (Value.num sh.nextId) := by
  show Record.get?
    (jsSpread2 [(sh.headers.headD "", Value.num sh.nextId)] data) (sh.headers.headD "") = _
  rw [Record.get?_jsSpread2 _ _ _ (by simp [Record.keys]) hnd, hid]
  rw [Record.get?_cons, if_pos rfl]
  rfl

/-- `add` reads back the caller value under the identifier key whenever the
input supplies one: the spread `\x7b [idKey]: newId, ...data \x7d` lets the
input win. -/
theorem get?_add_idKey_of_mem (sh : Sheet) (data : Record) (v : Value)
    (hnd : (Record.keys data).Nodup)
    (hv : Record.get? data (sh.headers.headD "") = some v) :
    Record.get? (sh.add data).1 (sh.headers.headD "") = some v := by
  show Record.get?
    (jsSpread2 [(sh.headers.headD "", Value.num sh.nextId)] data) (sh.headers.headD "") = _
  rw [Record.get?_jsSpread2 _ _ _ (by simp [Record.keys]) hnd, hv]
  rfl

/-- Under any key other than the identifier key, the record `add` returns
reads exactly as the input. -/
theorem get?_add_other (sh : Sheet) (data : Record) (q : String)
    (hnd : (Record.keys data).Nodup)
    (hq : q ≠ sh.headers.headD "") :
    Record.get? (sh.add data).1 q = Record.get? data q := by
  show Record.get? (jsSpread2 [(sh.headers.headD "", Value.num sh.nextId)] data) q = _
  rw [Record.get?_jsSpread2 _ _ _ (by simp [Record.keys]) hnd]
  rw [Record.get?_cons, if_neg (fun h => hq h.symm)]
  rw [Record.get?_nil, Option.or_none]

/-- The table after `add`: the header cache is untouched and the new row is
appended at the end. -/
theorem add_sheet (sh : Sheet) (data : Record) :
    (sh.add data).2 = { sh with rows := sh.rows ++ [sh.toRowArray (sh.add data).1] } := rfl

/-- When the input leaves the identifier key alone, the id cell of the row
`add` appends is the assigned id, so the next `add` assigns one more. -/
theorem nextId_add (sh : Sheet) (data : Record)
    (hh : sh.headers ≠ [])
    (hnd : (Record.keys data).Nodup)
    (hid : Record.get? data (sh.headers.headD "") = none) :
    (sh.add data).2.nextId = sh.nextId + 1 := by
  rw [add_sheet]
  unfold Sheet.nextId Sheet.lastIdValue
  have hg : ¬ ((sh.rows ++ [sh.toRowArray (sh.add data).1]).length + 1 ≤ 1) := by
    simp
  rw [if_neg hg]
  show jsNumberOr0 (((sh.rows ++ [sh.toRowArray (sh.add data).1]).getLast?.getD []).headD
    (Value.str "")) + 1 = _
  rw [List.getLast?_concat]
  show jsNumberOr0 ((sh.toRowArray (sh.add data).1).headD (Value.str "")) + 1 = _
  rw [toRowArray_headD _ _ hh, get?_add_idKey sh data hnd hid]
  rfl

/-! ### The claims -/

/-- C6: `update(id, data)` on an id that matches no record returns false and
leaves the table completely unchanged — no row is written or modified. -/
theorem C6_update_miss (sh : Sheet) (id : Value) (data : Record)
    (h : sh.getRowIndexById id = none) :
    sh.update id data = (false, sh) := by
  unfold Sheet.update
  rw [h]

theorem C6_update_miss_witness :
    (Sheet.getRowIndexById
        { headers := ["id", "name"], rows := [[Value.num 1, Value.str "Ann"]] }
        (Value.num 5) = none) ∧
    Sheet.update { headers := ["id", "name"], rows := [[Value.num 1, Value.str "Ann"]] }
        (Value.num 5) [("name", Value.str "Bo")] =
      (false, { headers := ["id", "name"], rows := [[Value.num 1, Value.str "Ann"]] }) :=
  ⟨by decide, C6_update_miss _ _ _ (by decide)⟩

/-- C9: when the lock wait times out, `add` and `update` throw before any
read or write of the table, leaving its state unchanged; on every exit path
(timeout, not-found return, success) the lock is not held after the call.
The 30 second bound itself is wall-clock behaviour of the external lock
service, represented here by the `LockOutcome.timeout` case. -/
theorem C9_locking (sh : Sheet) (data : Record) (id : Value) :
    Sheet.addLocked LockOutcome.timeout sh data =
      (Except.error "Lock timeout: could not obtain lock after 30000ms", sh, false) ∧
    Sheet.updateLocked LockOutcome.timeout sh id data =
      (Except.error "Lock timeout: could not obtain lock after 30000ms", sh, false) ∧
    (∀ lock, (Sheet.addLocked lock sh data).2.2 = false) ∧
    (∀ lock, (Sheet.updateLocked lock sh id data).2.2 = false) ∧
    Sheet.addLocked LockOutcome.acquired sh data =
      (Except.ok (sh.add data).1, (sh.add data).2, false) ∧
    Sheet.updateLocked LockOutcome.acquired sh id data =
      (Except.ok (sh.update id data).1, (sh.update id data).2, false) := by
  refine ⟨rfl, rfl, ?_, ?_, rfl, rfl⟩
  · intro lock
    cases lock <;> rfl
  · intro lock
    cases lock <;> rfl

/-- C8: `find(id)` scans the identifier column top to bottom, returns the
record of the first data row whose identifier stringifies equal to
`String(id)`, returns the null sentinel when no data row matches, and hence
cannot tell the number n from its decimal string. -/
theorem C8_find (sh : Sheet) (id : Value) :
    ((∀ row ∈ sh.rows, rowMatchesId id row = false) → sh.find id = none) ∧
    (∀ j, j < sh.rows.length → rowMatchesId id (sh.rows.getD j []) = true →
      (∀ i, i < j → rowMatchesId id (sh.rows.getD i []) = false) →
      sh.find id = some (sh.toObject (sh.rows.getD j []))) ∧
    (∀ n : Int, sh.find (Value.num n) = sh.find (Value.str (toString n))) := by
  refine ⟨?_, ?_, ?_⟩
  · intro h
    unfold Sheet.find
    rw [(getRowIndexById_none_iff sh id).mpr h]
    rfl
  · intro j hj hmatch hfirst
    unfold Sheet.find
    rw [getRowIndexById_eq, findIdx?_first (rowMatchesId id) sh.rows j [] hj hmatch hfirst]
    show some (sh.getObjectByRowIndex (j + 2)) = _
    unfold Sheet.getObjectByRowIndex
    have hj2 : j + 2 - 2 = j := by omega
    rw [hj2]
  · intro n
    rfl

theorem C8_find_witness :
    (∀ row ∈ ([[Value.num 1, Value.str "Ann"]] : List (List Value)),
      rowMatchesId (Value.num 7) row = false) ∧
    Sheet.find { headers := ["id", "name"], rows := [[Value.num 1, Value.str "Ann"]] }
      (Value.num 7) = none ∧
    Sheet.find { headers := ["id", "name"], rows := [[Value.num 1, Value.str "Ann"]] }
      (Value.num 1) = some [("id", Value.num 1), ("name", Value.str "Ann")] ∧
    Sheet.find { headers := ["id", "name"], rows := [[Value.num 1, Value.str "Ann"]] }
        (Value.num 1) =
      Sheet.find { headers := ["id", "name"], rows := [[Value.num 1, Value.str "Ann"]] }
        (Value.str "1") := by
  refine ⟨by decide, (C8_find _ _).1 (by decide), ?_,
    (C8_find { headers := ["id", "name"], rows := [[Value.num 1, Value.str "Ann"]] }
      (Value.num 1)).2.2 1⟩
  have h := (C8_find { headers := ["id", "name"], rows := [[Value.num 1, Value.str "Ann"]] }
    (Value.num 1)).2.1 0 (by decide) (by decide) (fun i hi => absurd hi (Nat.not_lt_zero i))
  rw [h]
  decide


/-- C1 (counterexample): on a table with header [id, name] and no data rows
the assigned id is 1, yet an input carrying id 99 makes `add` return and
write 99 under the identifier field — the caller-supplied identifier value
is not overwritten by the assigned one. -/
theorem C1_counterexample :
    Sheet.nextId sheetEmpty2 = 1 ∧
    Record.get? (Sheet.add sheetEmpty2 [("id", Value.num 99)]).1 "id" =
      some (Value.num 99) ∧
    Record.get? (Sheet.add sheetEmpty2 [("id", Value.num 99)]).1 "id" ≠
      some (Value.num 1) ∧
    (Sheet.add sheetEmpty2 [("id", Value.num 99)]).2.rows =
      [[Value.num 99, Value.str ""]] :=
  ⟨rfl, by decide, by decide, by decide⟩

/-- C1 (amended): the spread in `add` puts the input after the assigned id,
so when the input mapping contains the identifier field name the
caller-supplied value wins: the constructed record and the first cell of the
appended row carry the caller value, not the freshly assigned id. -/
theorem C1_amended (sh : Sheet) (data : Record) (v : Value)
    (hh : sh.headers ≠ [])
    (hnd : (Record.keys data).Nodup)
    (hv : Record.get? data (sh.headers.headD "") = some v) :
    Record.get? (sh.add data).1 (sh.headers.headD "") = some v ∧
    (sh.add data).2.rows = sh.rows ++ [sh.toRowArray (sh.add data).1] ∧
    ((sh.add data).2.rows.getLast?.getD []).headD (Value.str "") = v := by
  refine ⟨get?_add_idKey_of_mem sh data v hnd hv, rfl, ?_⟩
  show ((sh.rows ++ [sh.toRowArray (sh.add data).1]).getLast?.getD []).headD (Value.str "") = v
  rw [List.getLast?_concat]
  show (sh.toRowArray (sh.add data).1).headD (Value.str "") = v
  rw [toRowArray_headD _ _ hh, get?_add_idKey_of_mem sh data v hnd hv]
  rfl

theorem C1_amended_witness :
    (sheetEmpty2.headers ≠ [] ∧
     (Record.keys [("id", Value.num 99)]).Nodup ∧
     Record.get? [("id", Value.num 99)] (sheetEmpty2.headers.headD "") =
       some (Value.num 99)) ∧
    (Record.get? (Sheet.add sheetEmpty2 [("id", Value.num 99)]).1
        (sheetEmpty2.headers.headD "") = some (Value.num 99) ∧
      (Sheet.add sheetEmpty2 [("id", Value.num 99)]).2.rows =
        sheetEmpty2.rows ++
          [sheetEmpty2.toRowArray (Sheet.add sheetEmpty2 [("id", Value.num 99)]).1] ∧
      ((Sheet.add sheetEmpty2 [("id", Value.num 99)]).2.rows.getLast?.getD
        []).headD (Value.str "") = Value.num 99) :=
  ⟨⟨by decide, by decide, by decide⟩,
    C1_amended sheetEmpty2 [("id", Value.num 99)] (Value.num 99)
      (by decide) (by decide) (by decide)⟩

/-- C2 (counterexample): with header [id, name, age] and one existing
record, the record returned by add(name: Bo) is [id: 2, name: Bo]: the
header field age, absent from the input, is absent from the returned record
rather than present with the empty value — only the written row holds the
empty string for it, so the claim (and its example, which expects age
present with the empty value in the returned record) fails on the code. -/
theorem C2_counterexample :
    (Sheet.add sheetAnn [("name", Value.str "Bo")]).1 =
      [("id", Value.num 2), ("name", Value.str "Bo")] ∧
    Record.get? (Sheet.add sheetAnn [("name", Value.str "Bo")]).1 "age" = none ∧
    Record.get? (Sheet.add sheetAnn [("name", Value.str "Bo")]).1 "age" ≠
      some (Value.str "") ∧
    (Sheet.add sheetAnn [("name", Value.str "Bo")]).2.rows =
      [[Value.num 1, Value.str "Ann", Value.num 30],
       [Value.num 2, Value.str "Bo", Value.str ""]] :=
  ⟨by decide, by decide, by decide, by decide⟩

/-- C2 (amended): for an input that leaves the identifier key alone, the
returned record holds the assigned id under the identifier field and reads
exactly as the input under every other key — header fields absent from the
input are absent from the returned record; the row `add` appends has the
full width of the header, holding the assigned id in the identifier column,
the input value in the column of each supplied field, and the empty value
in the column of every header field absent from the input. -/
theorem C2_amended (sh : Sheet) (data : Record)
    (hnd : (Record.keys data).Nodup)
    (hid : Record.get? data (sh.headers.headD "") = none) :
    Record.get? (sh.add data).1 (sh.headers.headD "") = some (Value.num sh.nextId) ∧
    (∀ k, k ≠ sh.headers.headD "" →
      Record.get? (sh.add data).1 k = Record.get? data k) ∧
    (sh.add data).2.rows = sh.rows ++ [sh.toRowArray (sh.add data).1] ∧
    (sh.toRowArray (sh.add data).1).length = sh.headers.length ∧
    (∀ i, i < sh.headers.length →
      (sh.toRowArray (sh.add data).1).getD i (Value.str "") =
        if sh.headers.getD i "" = sh.headers.headD "" then Value.num sh.nextId
        else (Record.get? data (sh.headers.getD i "")).getD (Value.str "")) := by
  refine ⟨get?_add_idKey sh data hnd hid,
    fun k hk => get?_add_other sh data k hnd hk, rfl, toRowArray_length _ _, ?_⟩
  intro i hi
  rw [toRowArray_getD _ _ i hi]
  by_cases hik : sh.headers.getD i "" = sh.headers.headD ""
  · rw [if_pos hik, hik, get?_add_idKey sh data hnd hid]
    rfl
  · rw [if_neg hik, get?_add_other sh data _ hnd hik]

theorem C2_amended_witness :
    ((Record.keys [("name", Value.str "Bo")]).Nodup ∧
     Record.get? [("name", Value.str "Bo")] (sheetAnn.headers.headD "") = none) ∧
    (Record.get? (Sheet.add sheetAnn [("name", Value.str "Bo")]).1
        (sheetAnn.headers.headD "") = some (Value.num sheetAnn.nextId) ∧
      (∀ k, k ≠ sheetAnn.headers.headD "" →
        Record.get? (Sheet.add sheetAnn [("name", Value.str "Bo")]).1 k =
          Record.get? [("name", Value.str "Bo")] k) ∧
      (Sheet.add sheetAnn [("name", Value.str "Bo")]).2.rows =
        sheetAnn.rows ++
          [sheetAnn.toRowArray (Sheet.add sheetAnn [("name", Value.str "Bo")]).1] ∧
      (sheetAnn.toRowArray (Sheet.add sheetAnn
        [("name", Value.str "Bo")]).1).length = sheetAnn.headers.length ∧
      (∀ i, i < sheetAnn.headers.length →
        (sheetAnn.toRowArray (Sheet.add sheetAnn
            [("name", Value.str "Bo")]).1).getD i (Value.str "") =
          if sheetAnn.headers.getD i "" = sheetAnn.headers.headD ""
          then Value.num sheetAnn.nextId
          else (Record.get? [("name", Value.str "Bo")]
            (sheetAnn.headers.getD i "")).getD (Value.str ""))) :=
  ⟨⟨by decide, by decide⟩,
    C2_amended sheetAnn [("name", Value.str "Bo")] (by decide) (by decide)⟩

/-- `update` on a located row: returns true and writes the merged row back
over the same position, leaving the header cache alone. -/
theorem update_hit (sh : Sheet) (id : Value) (data : Record) (ri : Nat)
    (hri : sh.getRowIndexById id = some ri) :
    (sh.update id data).1 = true ∧
    (sh.update id data).2.headers = sh.headers ∧
    (sh.update id data).2.rows =
      sh.rows.set (ri - 2) (sh.toRowArray (jsSpread2 (sh.getObjectByRowIndex ri) data)) := by
  unfold Sheet.update
  rw [hri]
  exact ⟨rfl, rfl, rfl⟩

/-- `remove` on a located row: returns true and deletes exactly that row. -/
theorem remove_hit (sh : Sheet) (id : Value) (ri : Nat)
    (hri : sh.getRowIndexById id = some ri) :
    (sh.remove id).1 = true ∧
    (sh.remove id).2.headers = sh.headers ∧
    (sh.remove id).2.rows = sh.rows.eraseIdx (ri - 2) := by
  unfold Sheet.remove
  rw [hri]
  exact ⟨rfl, rfl, rfl⟩

/-- In a header without duplicate names, the scan for the name at position
`i` stops exactly at position `i`. -/
theorem findIdx?_getD_of_nodup (hs : List String) (i : Nat) (hi : i < hs.length)
    (hnd : hs.Nodup) :
    hs.findIdx? (fun x => x = hs.getD i "") = some i := by
  apply findIdx?_first _ _ i "" hi (decide_eq_true rfl)
  intro j hj
  apply decide_eq_false
  intro hEq
  have hji : j < hs.length := lt_trans hj hi
  rw [List.getD_eq_getElem _ _ hji, List.getD_eq_getElem _ _ hi] at hEq
  exact absurd ((List.Nodup.getElem_inj_iff hnd).mp hEq) (Nat.ne_of_lt hj)

/-- The merged row `update` writes, cell by cell: the supplied field gets
the supplied value, every other column keeps the cell read from the
existing row. -/
theorem update_merged_cell (sh : Sheet) (f : String) (v : Value) (row : List Value)
    (i : Nat) (hi : i < sh.headers.length) (hndh : sh.headers.Nodup) :
    (sh.toRowArray (jsSpread2 (sh.toObject row) [(f, v)])).getD i (Value.str "") =
      if sh.headers.getD i "" = f then v else row.getD i (Value.str "") := by
  rw [toRowArray_getD _ _ i hi]
  rw [Record.get?_jsSpread2 _ _ _ (nodup_keys_toObject sh row) (by simp [Record.keys])]
  by_cases hik : sh.headers.getD i "" = f
  · rw [if_pos hik, Record.get?_cons, if_pos hik.symm]
    rfl
  · rw [if_neg hik, Record.get?_cons,
      if_neg (fun h : f = sh.headers.getD i "" => hik h.symm), Record.get?_nil,
      Option.none_or]
    rw [get?_toObject _ _ _ hndh, findIdx?_getD_of_nodup sh.headers i hi hndh]
    rfl

/-- C5: `update(id, \x7bf: v\x7d)` on an existing record, with f a header
field other than the identifier, returns true, keeps the header cache and
every other row untouched, and writes the full merged row back at the
existing row position: column f holds v and every other column keeps its
existing cell — a shallow merge over the existing record, not a replace. -/
theorem C5_update_merge (sh : Sheet) (id : Value) (f : String) (v : Value) (ri : Nat)
    (hri : sh.getRowIndexById id = some ri)
    (hndh : sh.headers.Nodup)
    (hf : f ∈ sh.headers)
    (hfid : f ≠ sh.headers.headD "") :
    (sh.update id [(f, v)]).1 = true ∧
    (sh.update id [(f, v)]).2.headers = sh.headers ∧
    (sh.update id [(f, v)]).2.rows.length = sh.rows.length ∧
    (∀ j, j ≠ ri - 2 → (sh.update id [(f, v)]).2.rows.getD j [] = sh.rows.getD j []) ∧
    (∀ i, i < sh.headers.length →
      ((sh.update id [(f, v)]).2.rows.getD (ri - 2) []).getD i (Value.str "") =
        if sh.headers.getD i "" = f then v
        else (sh.rows.getD (ri - 2) []).getD i (Value.str "")) := by
  obtain ⟨hge, hlt, hmatch, hfirst⟩ := getRowIndexById_some sh id ri hri
  obtain ⟨h1, h2, h3⟩ := update_hit sh id [(f, v)] ri hri
  refine ⟨h1, h2, ?_, ?_, ?_⟩
  · rw [h3, List.length_set]
  · intro j hj
    rw [h3, List.getD_eq_getElem?_getD, List.getElem?_set_ne (fun h => hj h.symm),
      ← List.getD_eq_getElem?_getD]
  · intro i hi
    have hrow : (sh.rows.set (ri - 2)
        (sh.toRowArray (jsSpread2 (sh.getObjectByRowIndex ri) [(f, v)]))).getD (ri - 2) [] =
        sh.toRowArray (jsSpread2 (sh.getObjectByRowIndex ri) [(f, v)]) := by
      rw [List.getD_eq_getElem?_getD, List.getElem?_set_self hlt]
      rfl
    rw [h3, hrow]
    exact update_merged_cell sh f v (sh.rows.getD (ri - 2) []) i hi hndh

theorem C5_update_merge_witness :
    (Sheet.getRowIndexById sheetAnn (Value.num 1) = some 2 ∧
     sheetAnn.headers.Nodup ∧
     "age" ∈ sheetAnn.headers ∧
     "age" ≠ sheetAnn.headers.headD "") ∧
    ((sheetAnn.update (Value.num 1) [("age", Value.num 31)]).1 = true ∧
      (sheetAnn.update (Value.num 1) [("age", Value.num 31)]).2.headers =
        sheetAnn.headers ∧
      (sheetAnn.update (Value.num 1) [("age", Value.num 31)]).2.rows.length =
        sheetAnn.rows.length ∧
      (∀ j, j ≠ 2 - 2 →
        (sheetAnn.update (Value.num 1) [("age", Value.num 31)]).2.rows.getD j [] =
          sheetAnn.rows.getD j []) ∧
      (∀ i, i < sheetAnn.headers.length →
        ((sheetAnn.update (Value.num 1)
            [("age", Value.num 31)]).2.rows.getD (2 - 2) []).getD i (Value.str "") =
          if sheetAnn.headers.getD i "" = "age" then Value.num 31
          else (sheetAnn.rows.getD (2 - 2) []).getD i (Value.str ""))) :=
  ⟨⟨by decide, by decide, by decide, by decide⟩,
    C5_update_merge sheetAnn (Value.num 1) "age" (Value.num 31) 2
      (by decide) (by decide) (by decide) (by decide)⟩

/-- C10 (implicit): the shallow merge in `update` does not protect the
identifier field: an input carrying the identifier key writes the caller
value into the identifier column of the matched row, so `update` can change
the id of a record — and thereby duplicate an id already used by another
row, as the witness shows. -/
theorem C10_update_id (sh : Sheet) (id : Value) (data : Record) (v : Value) (ri : Nat)
    (hri : sh.getRowIndexById id = some ri)
    (hh : sh.headers ≠ [])
    (hnd : (Record.keys data).Nodup)
    (hv : Record.get? data (sh.headers.headD "") = some v) :
    (sh.update id data).1 = true ∧
    ((sh.update id data).2.rows.getD (ri - 2) []).headD (Value.str "") = v := by
  obtain ⟨hge, hlt, hmatch, hfirst⟩ := getRowIndexById_some sh id ri hri
  obtain ⟨h1, h2, h3⟩ := update_hit sh id data ri hri
  refine ⟨h1, ?_⟩
  rw [h3, List.getD_eq_getElem?_getD, List.getElem?_set_self hlt]
  show (sh.toRowArray (jsSpread2 (sh.toObject (sh.rows.getD (ri - 2) [])) data)).headD
    (Value.str "") = v
  rw [toRowArray_headD _ _ hh]
  rw [Record.get?_jsSpread2 _ _ _ (nodup_keys_toObject sh _) hnd, hv]
  rfl

theorem C10_update_id_witness :
    (Sheet.getRowIndexById sheetTwo2 (Value.num 2) = some 3 ∧
     sheetTwo2.headers ≠ [] ∧
     (Record.keys [("id", Value.num 1)]).Nodup ∧
     Record.get? [("id", Value.num 1)] (sheetTwo2.headers.headD "") =
       some (Value.num 1)) ∧
    ((sheetTwo2.update (Value.num 2) [("id", Value.num 1)]).1 = true ∧
      ((sheetTwo2.update (Value.num 2)
        [("id", Value.num 1)]).2.rows.getD (3 - 2) []).headD (Value.str "") =
        Value.num 1) :=
  ⟨⟨by decide, by decide, by decide, by decide⟩,
    C10_update_id sheetTwo2 (Value.num 2) [("id", Value.num 1)] (Value.num 1) 3
      (by decide) (by decide) (by decide) (by decide)⟩

/-- C7: `remove(id)` on a matching id returns true and deletes exactly that
one row — rows above it keep position and contents, rows below shift up by
one — and, when the matched row is the only match (the identifier
uniqueness invariant of the data model), a subsequent `find(id)` returns
the not-found sentinel; `remove(id)` on an id matching no record returns
false and changes nothing. -/
theorem C7_remove (sh : Sheet) (id : Value) :
    (sh.getRowIndexById id = none → sh.remove id = (false, sh)) ∧
    (∀ ri, sh.getRowIndexById id = some ri →
      (∀ j, j < sh.rows.length → j ≠ ri - 2 →
        rowMatchesId id (sh.rows.getD j []) = false) →
      (sh.remove id).1 = true ∧
      (sh.remove id).2.headers = sh.headers ∧
      (sh.remove id).2.rows.length = sh.rows.length - 1 ∧
      (∀ j, j < ri - 2 → (sh.remove id).2.rows.getD j [] = sh.rows.getD j []) ∧
      (∀ j, ri - 2 ≤ j → j < sh.rows.length - 1 →
        (sh.remove id).2.rows.getD j [] = sh.rows.getD (j + 1) []) ∧
      Sheet.find (sh.remove id).2 id = none) := by
  constructor
  · intro h
    unfold Sheet.remove
    rw [h]
  · intro ri hri huniq
    obtain ⟨hge, hlt, hmatch, hfirst⟩ := getRowIndexById_some sh id ri hri
    obtain ⟨h1, h2, h3⟩ := remove_hit sh id ri hri
    have hlen : (sh.rows.eraseIdx (ri - 2)).length = sh.rows.length - 1 := by
      rw [List.length_eraseIdx, if_pos hlt]
    refine ⟨h1, h2, by rw [h3, hlen], ?_, ?_, ?_⟩
    · intro j hj
      have hj1 : j < (sh.rows.eraseIdx (ri - 2)).length := by omega
      have hj2 : j < sh.rows.length := by omega
      rw [h3, List.getD_eq_getElem _ _ hj1, List.getD_eq_getElem _ _ hj2,
        List.getElem_eraseIdx_of_lt _ _ _ hj1 hj]
    · intro j hjge hjlt
      have hj1 : j < (sh.rows.eraseIdx (ri - 2)).length := by omega
      have hj2 : j + 1 < sh.rows.length := by omega
      rw [h3, List.getD_eq_getElem _ _ hj1, List.getD_eq_getElem _ _ hj2,
        List.getElem_eraseIdx_of_ge _ _ _ hj1 hjge]
    · unfold Sheet.find
      have hnone : (sh.remove id).2.getRowIndexById id = none := by
        rw [getRowIndexById_none_iff]
        intro row hrow
        rw [h3] at hrow
        obtain ⟨n, hn, hrow⟩ := List.mem_iff_getElem.mp hrow
        subst hrow
        have hn1 : n < sh.rows.length - 1 := by rw [hlen] at hn; exact hn
        by_cases hcase : n < ri - 2
        · rw [List.getElem_eraseIdx_of_lt _ _ _ hn hcase]
          have hn2 : n < sh.rows.length := by omega
          rw [← List.getD_eq_getElem sh.rows [] hn2]
          exact huniq n hn2 (by omega)
        · have hge2 : ri - 2 ≤ n := Nat.le_of_not_lt hcase
          rw [List.getElem_eraseIdx_of_ge _ _ _ hn hge2]
          have hn2 : n + 1 < sh.rows.length := by omega
          rw [← List.getD_eq_getElem sh.rows [] hn2]
          exact huniq (n + 1) hn2 (by omega)
      rw [hnone]
      rfl

theorem C7_remove_witness :
    (Sheet.getRowIndexById sheetTwo2 (Value.num 5) = none ∧
     sheetTwo2.remove (Value.num 5) = (false, sheetTwo2)) ∧
    (Sheet.getRowIndexById sheetTwo2 (Value.num 1) = some 2 ∧
     (∀ j, j < sheetTwo2.rows.length → j ≠ 2 - 2 →
       rowMatchesId (Value.num 1) (sheetTwo2.rows.getD j []) = false) ∧
     ((sheetTwo2.remove (Value.num 1)).1 = true ∧
      (sheetTwo2.remove (Value.num 1)).2.headers = sheetTwo2.headers ∧
      (sheetTwo2.remove (Value.num 1)).2.rows.length = sheetTwo2.rows.length - 1 ∧
      (∀ j, j < 2 - 2 →
        (sheetTwo2.remove (Value.num 1)).2.rows.getD j [] = sheetTwo2.rows.getD j []) ∧
      (∀ j, 2 - 2 ≤ j → j < sheetTwo2.rows.length - 1 →
        (sheetTwo2.remove (Value.num 1)).2.rows.getD j [] =
          sheetTwo2.rows.getD (j + 1) []) ∧
      Sheet.find (sheetTwo2.remove (Value.num 1)).2 (Value.num 1) = none)) :=
  ⟨⟨by decide, (C7_remove sheetTwo2 (Value.num 5)).1 (by decide)⟩,
   ⟨by decide, by decide,
    (C7_remove sheetTwo2 (Value.num 1)).2 2 (by decide) (by decide)⟩⟩

/-- Reading a written row back: with pairwise distinct headers, the record
`find` reconstructs from the row `_toRowArray(r)` agrees with `r` on every
header field present in `r`, holds the empty string for header fields absent
from `r`, and drops keys of `r` that are not header fields. -/
theorem get?_toObject_toRowArray (sh : Sheet) (r : Record) (q : String)
    (hndh : sh.headers.Nodup) :
    Record.get? (sh.toObject (sh.toRowArray r)) q =
      if q ∈ sh.headers then some ((Record.get? r q).getD (Value.str "")) else none := by
  rw [get?_toObject _ _ _ hndh]
  cases hfi : sh.headers.findIdx? (fun x => x = q) with
  | none =>
    rw [List.findIdx?_eq_none_iff] at hfi
    rw [if_neg]
    intro hq
    have hf := hfi q hq
    simp at hf
  | some j =>
    obtain ⟨hj, hpj, _⟩ := findIdx?_some_spec _ _ _ "" hfi
    have hkj : sh.headers.getD j "" = q := of_decide_eq_true hpj
    have hqmem : q ∈ sh.headers := by
      rw [← hkj, List.getD_eq_getElem _ _ hj]
      exact List.getElem_mem hj
    rw [if_pos hqmem]
    show some ((sh.toRowArray r).getD j (Value.str "")) =
      some ((Record.get? r q).getD (Value.str ""))
    rw [toRowArray_getD _ _ j hj, hkj]

/-- C3 (counterexample): on the scenario table, add(name: Bo) returns the
record R = [id: 2, name: Bo] with id 2, but find(2) on the resulting table
returns [id: 2, name: Bo, age: ""], which is not R: the add/find round-trip
fails whenever some header field is absent from the input. -/
theorem C3_counterexample :
    Record.get? (Sheet.add sheetAnn [("name", Value.str "Bo")]).1 "id" =
      some (Value.num 2) ∧
    Sheet.find (Sheet.add sheetAnn [("name", Value.str "Bo")]).2 (Value.num 2) =
      some [("id", Value.num 2), ("name", Value.str "Bo"), ("age", Value.str "")] ∧
    Sheet.find (Sheet.add sheetAnn [("name", Value.str "Bo")]).2 (Value.num 2) ≠
      some (Sheet.add sheetAnn [("name", Value.str "Bo")]).1 :=
  ⟨by decide, by decide, by decide⟩

/-- C3 (amended): after a successful add of an input that leaves the
identifier key alone, on a table with pairwise distinct headers none of
whose rows already stringify to the new id, find(newId) returns not R
itself but the read-back of the written row: a record that agrees with R on
every header field present in R, holds the empty value for header fields
absent from R, and drops non-header keys of R.  find(X) == R itself holds
only when those coincide. -/
theorem C3_amended (sh : Sheet) (data : Record)
    (hh : sh.headers ≠ [])
    (hndh : sh.headers.Nodup)
    (hnd : (Record.keys data).Nodup)
    (hid : Record.get? data (sh.headers.headD "") = none)
    (hfresh : ∀ row ∈ sh.rows, rowMatchesId (Value.num sh.nextId) row = false) :
    Sheet.find (sh.add data).2 (Value.num sh.nextId) =
      some (sh.toObject (sh.toRowArray (sh.add data).1)) ∧
    (∀ q, Record.get? (sh.toObject (sh.toRowArray (sh.add data).1)) q =
      if q ∈ sh.headers then some ((Record.get? (sh.add data).1 q).getD (Value.str ""))
      else none) := by
  refine ⟨?_, fun q => get?_toObject_toRowArray sh _ q hndh⟩
  have hmatch : rowMatchesId (Value.num sh.nextId) (sh.toRowArray (sh.add data).1) = true := by
    unfold rowMatchesId
    rw [toRowArray_headD _ _ hh, get?_add_idKey sh data hnd hid]
    exact decide_eq_true rfl
  unfold Sheet.find
  have hrows : (sh.add data).2.rows = sh.rows ++ [sh.toRowArray (sh.add data).1] := rfl
  have hindex : (sh.add data).2.getRowIndexById (Value.num sh.nextId) =
      some (sh.rows.length + 2) := by
    rw [getRowIndexById_eq, hrows, List.findIdx?_append,
      List.findIdx?_eq_none_iff.mpr hfresh, Option.none_or]
    rw [List.findIdx?_cons, hmatch]
    simp
  rw [hindex]
  show some ((sh.add data).2.getObjectByRowIndex (sh.rows.length + 2)) = _
  unfold Sheet.getObjectByRowIndex
  have hsub : sh.rows.length + 2 - 2 = sh.rows.length := by omega
  rw [hsub, hrows, List.getD_eq_getElem?_getD, List.getElem?_concat_length]
  rfl

theorem C3_amended_witness :
    (sheetAnn.headers ≠ [] ∧
     sheetAnn.headers.Nodup ∧
     (Record.keys [("name", Value.str "Bo")]).Nodup ∧
     Record.get? [("name", Value.str "Bo")] (sheetAnn.headers.headD "") = none ∧
     (∀ row ∈ sheetAnn.rows, rowMatchesId (Value.num sheetAnn.nextId) row = false)) ∧
    (Sheet.find (Sheet.add sheetAnn [("name", Value.str "Bo")]).2
        (Value.num sheetAnn.nextId) =
      some (sheetAnn.toObject (sheetAnn.toRowArray
        (Sheet.add sheetAnn [("name", Value.str "Bo")]).1)) ∧
     (∀ q, Record.get? (sheetAnn.toObject (sheetAnn.toRowArray
          (Sheet.add sheetAnn [("name", Value.str "Bo")]).1)) q =
        if q ∈ sheetAnn.headers
        then some ((Record.get? (Sheet.add sheetAnn
          [("name", Value.str "Bo")]).1 q).getD (Value.str ""))
        else none)) :=
  ⟨⟨by decide, by decide, by decide, by decide, by decide⟩,
    C3_amended sheetAnn [("name", Value.str "Bo")]
      (by decide) (by decide) (by decide) (by decide) (by decide)⟩

/-- Running `add` over a list of inputs that all leave the identifier key
alone assigns consecutive ids starting at the nextId of the initial
table. -/
theorem addSeq_ids (sh : Sheet) (ds : List Record)
    (hh : sh.headers ≠ [])
    (hds : ∀ d ∈ ds, (Record.keys d).Nodup ∧
      Record.get? d (sh.headers.headD "") = none) :
    ((sh.addSeq ds).1).map (fun r => Record.get? r (sh.headers.headD "")) =
      (List.range ds.length).map (fun (i : Nat) => some (Value.num (sh.nextId + (i : Int)))) := by
  induction ds generalizing sh with
  | nil => rfl
  | cons d t ih =>
    obtain ⟨hndd, hidd⟩ := hds d (List.mem_cons_self d t)
    have hstep : sh.addSeq (d :: t) =
        ((sh.add d).1 :: ((sh.add d).2.addSeq t).1, ((sh.add d).2.addSeq t).2) := rfl
    rw [hstep]
    have hhead2 : (sh.add d).2.headers = sh.headers := rfl
    have iha := ih (sh.add d).2 (by rw [hhead2]; exact hh)
      (fun d2 hd2 => by rw [hhead2]; exact hds d2 (List.mem_cons_of_mem d hd2))
    rw [hhead2] at iha
    show Record.get? (sh.add d).1 (sh.headers.headD "") ::
        (((sh.add d).2.addSeq t).1).map (fun r => Record.get? r (sh.headers.headD "")) = _
    rw [iha, get?_add_idKey sh d hndd hidd, nextId_add sh d hh hndd hidd]
    rw [List.length_cons, List.range_succ_eq_map, List.map_cons, List.map_map]
    congr 1
    · show some (Value.num sh.nextId) = some (Value.num (sh.nextId + ((0 : Nat) : Int)))
      congr 2
      rw [Int.natCast_zero, Int.add_zero]
    · apply List.map_congr_left
      intro i _
      show some (Value.num (sh.nextId + 1 + (i : Int))) =
        some (Value.num (sh.nextId + ((Nat.succ i : Nat) : Int)))
      congr 2
      push_cast
      ring

/-- C4: starting from a table with a header row and no data rows, a
sequence of N successful adds (each input leaving the identifier key alone)
returns records whose identifier fields are exactly 1, 2, ..., N in call
order; each add assigns `Number(last data row id cell) || 0` plus 1 as read
back under the identifier key of the returned record, and the id cell read
when there are no data rows is the number 0, so the first add on an empty
table assigns 1. -/
theorem C4_ids (hs : List String) (ds : List Record)
    (hh : hs ≠ [])
    (hds : ∀ d ∈ ds, (Record.keys d).Nodup ∧ Record.get? d (hs.headD "") = none) :
    ((Sheet.addSeq { headers := hs, rows := [] } ds).1).map
        (fun r => Record.get? r (hs.headD "")) =
      (List.range ds.length).map (fun (i : Nat) => some (Value.num ((i : Int) + 1))) ∧
    (∀ (sh : Sheet) (d : Record), (Record.keys d).Nodup →
      Record.get? d (sh.headers.headD "") = none →
      Record.get? (sh.add d).1 (sh.headers.headD "") =
        some (Value.num (jsNumberOr0 sh.lastIdValue + 1))) ∧
    (∀ sh : Sheet, sh.rows = [] → sh.lastIdValue = Value.num 0) := by
  refine ⟨?_, ?_, ?_⟩
  · rw [addSeq_ids { headers := hs, rows := [] } ds hh hds]
    apply List.map_congr_left
    intro i _
    have h1 : Sheet.nextId { headers := hs, rows := [] } = 1 := rfl
    rw [h1]
    congr 2
    omega
  · intro sh d hnd hid
    exact get?_add_idKey sh d hnd hid
  · intro sh h
    unfold Sheet.lastIdValue
    rw [h]
    rfl

theorem C4_ids_witness :
    ((["id", "name"] : List String) ≠ [] ∧
     (∀ d ∈ ([[("name", Value.str "a")], [("name", Value.str "b")],
          [("name", Value.str "c")]] : List Record),
        (Record.keys d).Nodup ∧
        Record.get? d ((["id", "name"] : List String).headD "") = none)) ∧
    ((Sheet.addSeq { headers := ["id", "name"], rows := [] }
          [[("name", Value.str "a")], [("name", Value.str "b")],
           [("name", Value.str "c")]]).1).map
        (fun r => Record.get? r ((["id", "name"] : List String).headD "")) =
      (List.range 3).map (fun (i : Nat) => some (Value.num ((i : Int) + 1))) :=
  ⟨⟨by decide, by decide⟩,
    (C4_ids ["id", "name"]
      [[("name", Value.str "a")], [("name", Value.str "b")], [("name", Value.str "c")]]
      (by decide) (by decide)).1⟩
